import Mathlib

/-!
Verification of the `bevy-rdyn-plugins` dynamic-plugin loader.

The development shallowly embeds the two source modules:

* `dyn_api.rs` — the single-module loader `load_rdyn_plugin`, the owning
  handle `RustDynPlugin` with its `Deref`/`DerefMut` delegation and
  `forget_library`;
* `mod_loader.rs` — the `ModLoaderExt` extension for a bevy `App`:
  `load_mod`, `load_mods` and the `ModLoaderData` registry resource.

External collaborators (the platform dynamic loader behind
`libloading::Library`, the filesystem behind `fs::read_dir`, and bevy's
resource store) are modelled by an explicit environment `Env` and an
explicit resource-tracking state `LoaderState`.  The host application's
mutable state that plugin `build` callbacks act on is abstracted by a type
parameter `σ`.
-/

namespace RdynPlugins

/-- Name of the symbol exported/imported to create the plugin:
`CREATE_RDYN_SYM_NAME` in `dyn_api.rs`, the byte string
`b"_create_rdyn_plugin"`. -/
def CREATE_RDYN_SYM_NAME : String := "_create_rdyn_plugin"

/-- A bevy `Plugin` trait object (the `Box<dyn Plugin>` of `RDynReturn`):
it reports a `name` and has a `build` callback that runs against the host
application's mutable state, abstracted here by `σ`. -/
structure DynPlugin (σ : Type) where
  name : String
  build : σ → σ

/-- A `libloading::Library`: an opaque owned handle to a mapped
dynamic-library image.  Images are identified by a numeric id allocated
when the image is mapped. -/
structure Library where
  id : Nat

/-- `RustDynPlugin` (`dyn_api.rs` lines 18–23): owns both the open library
image and the plugin object produced by the entry point. -/
structure RustDynPlugin (σ : Type) where
  library : Library
  plugin : DynPlugin σ

/-- The `Deref` impl for `RustDynPlugin` (`dyn_api.rs` lines 25–31):
dereferencing the handle yields `&self.plugin`. -/
def RustDynPlugin.deref {σ : Type} (h : RustDynPlugin σ) : DynPlugin σ :=
  h.plugin

/-- The `DerefMut` impl (`dyn_api.rs` lines 33–37), functionally: a
mutation performed through the returned `&mut self.plugin` is an in-place
update of the `plugin` field. -/
def RustDynPlugin.derefMutModify {σ : Type} (h : RustDynPlugin σ)
    (f : DynPlugin σ → DynPlugin σ) : RustDynPlugin σ :=
  { h with plugin := f h.plugin }

/-- Calling `name()` on the handle resolves through `Deref` to the wrapped
object's `name()`. -/
def RustDynPlugin.name {σ : Type} (h : RustDynPlugin σ) : String :=
  (RustDynPlugin.deref h).name

/-- State of the dynamic loader and of the resources it manages:
`nextLib` supplies fresh image ids, `mapped` lists the ids of currently
mapped images, and `entryCalls` logs every invocation of a module's entry
point (by the path it was loaded from), most recent first. -/
structure LoaderState where
  nextLib : Nat
  mapped : List Nat
  entryCalls : List String
  deriving DecidableEq

/-- Drop glue of `libloading::Library`: dropping the handle unmaps the
image. -/
def Library.drop (lib : Library) (st : LoaderState) : LoaderState :=
  { st with mapped := st.mapped.erase lib.id }

/-- `RustDynPlugin::forget_library` (`dyn_api.rs` lines 66–70).  The source
body is `std::mem::forget(&self.library)`.  `std::mem::forget` consumes its
argument without running that argument's drop glue; here the argument is
the shared reference `&Library` (the method only receives `&self`, so the
field itself cannot be moved out), and a shared reference has no drop glue.
The `Library` field is untouched and its drop glue still runs when the
handle is dropped, so the call has no effect on the loader state. -/
def RustDynPlugin.forget_library {σ : Type} (_h : RustDynPlugin σ)
    (st : LoaderState) : LoaderState :=
  st

/-- Drop glue of `RustDynPlugin`: dropping the handle drops its fields,
and dropping the owned `library` field unmaps the image. -/
def RustDynPlugin.dropGlue {σ : Type} (h : RustDynPlugin σ)
    (st : LoaderState) : LoaderState :=
  Library.drop h.library st

/-- One entry yielded by `fs::read_dir`.  `isFileResult` models
`entry.file_type()` composed with `is_file()`: `none` means the
`file_type()` call failed, `some b` means it succeeded and `is_file()`
returned `b`.  `pathStr` models `entry.path().to_str()`: `none` means the
path is not representable as text. -/
structure DirEntry where
  isFileResult : Option Bool
  pathStr : Option String

/-- The ambient platform, fixed per run: whether `Library::new` succeeds on
a path (`libNew`); what `library.get(symbol_name)` resolves to for the
image opened from a path, the resolved entry point being a zero-argument
function producing a plugin object (`getSym`); and what `fs::read_dir`
yields on a directory (`readDir`): `none` means the directory cannot be
listed, and a `none` element is an errored entry, the kind skipped by the
source's `.flatten()`. -/
structure Env (σ : Type) where
  libNew : String → Bool
  getSym : String → String → Option (Unit → DynPlugin σ)
  readDir : String → Option (List (Option DirEntry))

/-- `load_rdyn_plugin` (`dyn_api.rs` lines 79–85).  Opens the image at
`path` (`Library::new(path).ok()?`); on failure returns `none` untouched.
On success it allocates a fresh image id and maps it, resolves the
well-known symbol (`library.get(CREATE_RDYN_SYM_NAME).ok()?`); if the
symbol is absent the `?` drops the freshly opened local `library`
(unmapping it) and returns `none`.  Otherwise the entry point is invoked
(recorded in `entryCalls`) and the library and the produced plugin are
bundled into a `RustDynPlugin`. -/
def load_rdyn_plugin {σ : Type} (env : Env σ) (path : String)
    (st : LoaderState) : Option (RustDynPlugin σ) × LoaderState :=
  if env.libNew path then
    let lib : Library := ⟨st.nextLib⟩
    let st1 : LoaderState := ⟨st.nextLib + 1, lib.id :: st.mapped, st.entryCalls⟩
    match env.getSym path CREATE_RDYN_SYM_NAME with
    | none => (none, Library.drop lib st1)
    | some create_plugin_sym =>
        let st2 : LoaderState := { st1 with entryCalls := path :: st1.entryCalls }
        (some ⟨lib, create_plugin_sym ()⟩, st2)
  else
    (none, st)

/-- `RustDynPlugin::load_from` (`dyn_api.rs` lines 57–59): an ease-of-use
wrapper for `load_rdyn_plugin`. -/
def RustDynPlugin.load_from {σ : Type} (env : Env σ) (path : String)
    (st : LoaderState) : Option (RustDynPlugin σ) × LoaderState :=
  load_rdyn_plugin env path st

/-- `ModLoaderData` (`mod_loader.rs` lines 30–33): the registry resource
storing every plugin loaded via `load_mods`. -/
structure ModLoaderData (σ : Type) where
  loaded_plugins : List (RustDynPlugin σ)

/-- Drop glue of `ModLoaderData`: dropping the registry drops every stored
handle, in order, unmapping each handle's image. -/
def ModLoaderData.dropGlue {σ : Type} (d : ModLoaderData σ)
    (st : LoaderState) : LoaderState :=
  d.loaded_plugins.foldl (fun s h => RustDynPlugin.dropGlue h s) st

/-- The bevy `App`, as far as this loader observes it: the abstract host
state acted on by plugin `build` callbacks, plus the resource slot holding
the single resource of type `ModLoaderData`. -/
structure App (σ : Type) where
  hostState : σ
  modLoaderData : Option (ModLoaderData σ)

/-- bevy's `App::insert_resource` at type `ModLoaderData`: stores the
value, replacing — and thereby dropping — any previously stored resource of
the same type. -/
def App.insert_resource {σ : Type} (app : App σ) (st : LoaderState)
    (d : ModLoaderData σ) : App σ × LoaderState :=
  match app.modLoaderData with
  | some old => ({ app with modLoaderData := some d }, ModLoaderData.dropGlue old st)
  | none => ({ app with modLoaderData := some d }, st)

/-- `ModLoaderExt::load_mod` for `App` (`mod_loader.rs` lines 50–67):
attempt `RustDynPlugin::load_from`; on `Some(plugin)` call
`plugin.build(self)` (resolved through `Deref` to the wrapped object's
`build`) and return the handle; on `None` return `None` leaving the app
untouched. -/
def App.load_mod {σ : Type} (env : Env σ) (app : App σ) (st : LoaderState)
    (mod_path : String) : Option (RustDynPlugin σ) × App σ × LoaderState :=
  match RustDynPlugin.load_from env mod_path st with
  | (some plugin, st1) =>
      (some plugin,
       { app with hostState := (RustDynPlugin.deref plugin).build app.hostState },
       st1)
  | (none, st1) => (none, app, st1)

/-- The candidate list of a directory scan (`mod_loader.rs` lines 74–76):
`read_dir` entries after `.flatten()` (dropping errored entries) and
`.filter(|p| p.file_type().map_or(false, |f| f.is_file()))`. -/
def filteredCandidates (entries : List (Option DirEntry)) : List DirEntry :=
  (entries.filterMap id).filter (fun e => e.isFileResult.getD false)

/-- One `for_each` iteration of `load_mods` (`mod_loader.rs` lines 77–87)
over a filtered candidate: derive the path as text (skip the candidate on
failure), run `load_mod`, and append the handle to the registry being
accumulated when a plugin was produced. -/
def load_mods_step {σ : Type} (env : Env σ)
    (acc : App σ × LoaderState × List (RustDynPlugin σ)) (e : DirEntry) :
    App σ × LoaderState × List (RustDynPlugin σ) :=
  match e.pathStr with
  | none => acc
  | some plugin_path =>
      match App.load_mod env acc.1 acc.2.1 plugin_path with
      | (some plugin, app1, st1) => (app1, st1, acc.2.2 ++ [plugin])
      | (none, app1, st1) => (app1, st1, acc.2.2)

/-- `ModLoaderExt::load_mods` (`mod_loader.rs` lines 69–92): list the
directory; if listing fails, only warn (the candidate set is empty);
otherwise process each filtered candidate in enumeration order.  In every
case the accumulated `ModLoaderData` is inserted into the app as a
resource before returning. -/
def App.load_mods {σ : Type} (env : Env σ) (app : App σ) (st : LoaderState)
    (mods_directory : String) : App σ × LoaderState :=
  match env.readDir mods_directory with
  | none => App.insert_resource app st ⟨[]⟩
  | some entries =>
      let result := (filteredCandidates entries).foldl (load_mods_step env) (app, st, [])
      App.insert_resource result.1 result.2.1 ⟨result.2.2⟩

/-- Whether a filtered candidate is a valid module under `env`, and which
plugin object it yields: its path is representable as text, the image
opens, and the well-known entry symbol resolves; the plugin object is the
entry point's result. -/
def candidateLoadsPlugin {σ : Type} (env : Env σ) (e : DirEntry) :
    Option (DynPlugin σ) :=
  match e.pathStr with
  | none => none
  | some path =>
      if env.libNew path then
        match env.getSym path CREATE_RDYN_SYM_NAME with
        | some f => some (f ())
        | none => none
      else none

/-- Whether a raw `read_dir` entry is a valid module under `env`: the entry
was readable, is a regular file, and its candidate loads a plugin. -/
def entryLoadsPlugin {σ : Type} (env : Env σ) :
    Option DirEntry → Option (DynPlugin σ)
  | none => none
  | some e =>
      if e.isFileResult.getD false then candidateLoadsPlugin env e else none

/-- Well-formedness of a loader state: mapped image ids are pairwise
distinct and below the fresh-id counter.  Holds of any state actually
produced by the loader starting from an empty state. -/
def LoaderState.WF (st : LoaderState) : Prop :=
  st.mapped.Nodup ∧ ∀ i ∈ st.mapped, i < st.nextLib

/-- Concrete demonstration plugin "A": bumps the numeric host state. -/
def pAW : DynPlugin Nat := ⟨"A", fun n => n + 1⟩

/-- Concrete demonstration plugin "B": doubles the numeric host state. -/
def pBW : DynPlugin Nat := ⟨"B", fun n => n * 2⟩

/-- A concrete platform for evaluation: the directory `m` enumerates two
valid modules `a.so` and `b.so` around six invalid candidates (an errored
entry, a directory, an entry whose `file_type()` fails, a non-text path,
an unopenable file `bad`, and `nosym.so` which opens but lacks the entry
symbol). -/
def envW : Env Nat where
  libNew := fun p => p == "a.so" || p == "b.so" || p == "nosym.so"
  getSym := fun p s =>
    if s == CREATE_RDYN_SYM_NAME then
      if p == "a.so" then some (fun _ => pAW)
      else if p == "b.so" then some (fun _ => pBW)
      else none
    else none
  readDir := fun d =>
    if d == "m" then
      some [some ⟨some true, some "a.so"⟩,
            none,
            some ⟨some false, some "sub"⟩,
            some ⟨none, some "odd"⟩,
            some ⟨some true, none⟩,
            some ⟨some true, some "bad"⟩,
            some ⟨some true, some "nosym.so"⟩,
            some ⟨some true, some "b.so"⟩]
    else none

/-- The six middle entries of `envW`'s directory `m`, between the two
valid modules. -/
def midEntriesW : List (Option DirEntry) :=
  [none,
   some ⟨some false, some "sub"⟩,
   some ⟨none, some "odd"⟩,
   some ⟨some true, none⟩,
   some ⟨some true, some "bad"⟩,
   some ⟨some true, some "nosym.so"⟩]

/-- The directory entry of the first valid module `a.so` in `envW`. -/
def eAW : DirEntry := ⟨some true, some "a.so"⟩

/-- The directory entry of the second valid module `b.so` in `envW`. -/
def eBW : DirEntry := ⟨some true, some "b.so"⟩

/-! ## Helper lemmas -/

theorem candidateLoadsPlugin_some_elim {σ : Type} {env : Env σ} {e : DirEntry}
    {p : DynPlugin σ} (h : candidateLoadsPlugin env e = some p) :
    ∃ path f, e.pathStr = some path ∧ env.libNew path = true ∧
      env.getSym path CREATE_RDYN_SYM_NAME = some f ∧ f () = p := by
  unfold candidateLoadsPlugin at h
  split at h
  · exact absurd h (by simp)
  next path hp =>
    split at h
    next hb =>
      split at h
      next f hs => exact ⟨path, f, hp, hb, hs, Option.some_inj.mp h⟩
      · exact absurd h (by simp)
    · exact absurd h (by simp)

theorem candidateLoadsPlugin_none_elim {σ : Type} {env : Env σ} {e : DirEntry}
    (h : candidateLoadsPlugin env e = none) :
    e.pathStr = none ∨
      ∃ path, e.pathStr = some path ∧
        (env.libNew path = false ∨
         env.getSym path CREATE_RDYN_SYM_NAME = none) := by
  unfold candidateLoadsPlugin at h
  split at h
  next hp => exact Or.inl hp
  next path hp =>
    split at h
    next hb =>
      split at h
      next f hs => exact absurd h (by simp)
      next hs => exact Or.inr ⟨path, hp, Or.inr hs⟩
    next hb => exact Or.inr ⟨path, hp, Or.inl (by simpa using hb)⟩

theorem entryLoadsPlugin_some_elim {σ : Type} {env : Env σ} {e : DirEntry}
    {p : DynPlugin σ} (h : entryLoadsPlugin env (some e) = some p) :
    e.isFileResult.getD false = true ∧ candidateLoadsPlugin env e = some p := by
  simp only [entryLoadsPlugin] at h
  split at h
  next hf => exact ⟨hf, h⟩
  · exact absurd h (by simp)

theorem load_rdyn_plugin_of_valid {σ : Type} {env : Env σ} {path : String}
    {f : Unit → DynPlugin σ} (hb : env.libNew path = true)
    (hs : env.getSym path CREATE_RDYN_SYM_NAME = some f) (st : LoaderState) :
    load_rdyn_plugin env path st =
      (some ⟨⟨st.nextLib⟩, f ()⟩,
       ⟨st.nextLib + 1, st.nextLib :: st.mapped, path :: st.entryCalls⟩) := by
  simp [load_rdyn_plugin, hb, hs]

theorem load_mods_step_of_valid {σ : Type} {env : Env σ} {e : DirEntry}
    {p : DynPlugin σ} (h : candidateLoadsPlugin env e = some p)
    (acc : App σ × LoaderState × List (RustDynPlugin σ)) :
    load_mods_step env acc e =
      ({ acc.1 with hostState := p.build acc.1.hostState },
       ⟨acc.2.1.nextLib + 1, acc.2.1.nextLib :: acc.2.1.mapped,
        e.pathStr.getD "" :: acc.2.1.entryCalls⟩,
       acc.2.2 ++ [⟨⟨acc.2.1.nextLib⟩, p⟩]) := by
  obtain ⟨path, f, hp, hb, hs, hf⟩ := candidateLoadsPlugin_some_elim h
  simp [load_mods_step, hp, App.load_mod, RustDynPlugin.load_from,
    load_rdyn_plugin_of_valid hb hs, RustDynPlugin.deref, hf]

theorem load_mods_step_of_invalid {σ : Type} {env : Env σ} {e : DirEntry}
    (h : candidateLoadsPlugin env e = none)
    (acc : App σ × LoaderState × List (RustDynPlugin σ)) :
    (load_mods_step env acc e).2.2 = acc.2.2 := by
  rcases candidateLoadsPlugin_none_elim h with hp | ⟨path, hp, hb | hs⟩
  · simp [load_mods_step, hp]
  · simp [load_mods_step, hp, App.load_mod, RustDynPlugin.load_from,
      load_rdyn_plugin, hb]
  · by_cases hb : env.libNew path <;>
      simp [load_mods_step, hp, App.load_mod, RustDynPlugin.load_from,
        load_rdyn_plugin, hb, hs]

theorem load_mods_step_loaded_map {σ : Type} (env : Env σ)
    (acc : App σ × LoaderState × List (RustDynPlugin σ)) (e : DirEntry) :
    ((load_mods_step env acc e).2.2).map (fun h => h.plugin) =
      acc.2.2.map (fun h => h.plugin) ++ (candidateLoadsPlugin env e).toList := by
  cases hc : candidateLoadsPlugin env e with
  | some p => simp [load_mods_step_of_valid hc]
  | none => simp [load_mods_step_of_invalid hc]

theorem load_mods_foldl_loaded_map {σ : Type} (env : Env σ)
    (cs : List DirEntry) :
    ∀ acc : App σ × LoaderState × List (RustDynPlugin σ),
      ((cs.foldl (load_mods_step env) acc).2.2).map (fun h => h.plugin) =
        acc.2.2.map (fun h => h.plugin) ++ cs.filterMap (candidateLoadsPlugin env) := by
  induction cs with
  | nil => intro acc; simp
  | cons c rest ih =>
      intro acc
      rw [List.foldl_cons, ih, load_mods_step_loaded_map]
      cases hc : candidateLoadsPlugin env c <;> simp [hc]

theorem filterMap_entryLoads_eq {σ : Type} (env : Env σ)
    (entries : List (Option DirEntry)) :
    entries.filterMap (entryLoadsPlugin env) =
      (filteredCandidates entries).filterMap (candidateLoadsPlugin env) := by
  induction entries with
  | nil => rfl
  | cons e rest ih =>
      cases e with
      | none => simpa [filteredCandidates, entryLoadsPlugin] using ih
      | some e =>
          by_cases hf : e.isFileResult.getD false
          · simp only [filteredCandidates, List.filterMap_cons, id] at ih ⊢
            simp only [entryLoadsPlugin, if_pos hf, List.filter_cons, hf]
            cases hc : candidateLoadsPlugin env e <;> simp [hc, ih]
          · simp only [filteredCandidates, List.filterMap_cons, id] at ih ⊢
            simp [entryLoadsPlugin, if_neg hf, List.filter_cons,
              Bool.of_not_eq_true hf, ih]

theorem App.insert_resource_fst {σ : Type} (app : App σ) (st : LoaderState)
    (d : ModLoaderData σ) :
    (App.insert_resource app st d).1 = { app with modLoaderData := some d } := by
  unfold App.insert_resource
  cases app.modLoaderData <;> rfl

theorem load_mods_eq_of_readDir {σ : Type} (env : Env σ) (app : App σ)
    (st : LoaderState) (dir : String) (entries : List (Option DirEntry))
    (hdir : env.readDir dir = some entries) :
    App.load_mods env app st dir =
      App.insert_resource
        ((filteredCandidates entries).foldl (load_mods_step env) (app, st, [])).1
        ((filteredCandidates entries).foldl (load_mods_step env) (app, st, [])).2.1
        ⟨((filteredCandidates entries).foldl (load_mods_step env) (app, st, [])).2.2⟩ := by
  unfold App.load_mods
  rw [hdir]

theorem filteredCandidates_append (xs ys : List (Option DirEntry)) :
    filteredCandidates (xs ++ ys) =
      filteredCandidates xs ++ filteredCandidates ys := by
  simp [filteredCandidates, List.filterMap_append, List.filter_append]

theorem filteredCandidates_cons_file {e : DirEntry}
    (hf : e.isFileResult.getD false = true) (ys : List (Option DirEntry)) :
    filteredCandidates (some e :: ys) = e :: filteredCandidates ys := by
  simp [filteredCandidates, List.filterMap_cons, List.filter_cons, hf]

/-! ## Claim theorems -/

/-- C1: `forget_library` does not in fact keep the image mapped.  The
source only forgets the shared reference `&self.library`, which has no
drop glue, so the call leaves the loader state entirely unchanged (first
conjunct); concretely, after loading a valid module, calling
`forget_library` on the handle and then dropping the handle leaves the
image unmapped (second conjunct), contrary to the claim and to the
method's own documentation. -/
theorem forget_library_noop_image_unmapped :
    (∀ (σ : Type) (h : RustDynPlugin σ) (st : LoaderState),
        RustDynPlugin.forget_library h st = st) ∧
    (∃ (h : RustDynPlugin Nat) (st1 : LoaderState),
        load_rdyn_plugin envW "a.so" ⟨0, [], []⟩ = (some h, st1) ∧
        st1.mapped = [0] ∧
        (RustDynPlugin.dropGlue h (RustDynPlugin.forget_library h st1)).mapped = []) := by
  refine ⟨fun σ h st => rfl, ⟨⟨⟨0⟩, pAW⟩, ⟨1, [0], ["a.so"]⟩, rfl, rfl, rfl⟩⟩

/-- C3: if the library image at `path` cannot be opened, `load_rdyn_plugin`
returns `none` with the loader state — in particular the entry-call log —
completely unchanged, so the entry point is never invoked; and a
symbol-resolution failure produces the very same `none` first component,
so the two failures are indistinguishable in the returned value. -/
theorem load_rdyn_plugin_open_failure_absent {σ : Type} (env : Env σ)
    (path : String) (st : LoaderState) :
    (env.libNew path = false → load_rdyn_plugin env path st = (none, st)) ∧
    (env.getSym path CREATE_RDYN_SYM_NAME = none →
      (load_rdyn_plugin env path st).1 = none) := by
  constructor
  · intro h; simp [load_rdyn_plugin, h]
  · intro h
    by_cases hb : env.libNew path <;> simp [load_rdyn_plugin, h, hb]

/-- Witness for C3 under the concrete platform `envW`: `bad` cannot be
opened and yields `(none, st)` unchanged; `nosym.so` opens but lacks the
symbol and yields the same `none` result. -/
theorem load_rdyn_plugin_open_failure_absent_witness :
    load_rdyn_plugin envW "bad" ⟨0, [], []⟩ = (none, ⟨0, [], []⟩) ∧
    (load_rdyn_plugin envW "nosym.so" ⟨0, [], []⟩).1 = none :=
  ⟨(load_rdyn_plugin_open_failure_absent envW "bad" ⟨0, [], []⟩).1 rfl,
   (load_rdyn_plugin_open_failure_absent envW "nosym.so" ⟨0, [], []⟩).2 rfl⟩

/-- C4: if the image at `path` opens but the well-known entry symbol is
absent, `load_rdyn_plugin` returns `none` and the freshly mapped image is
unmapped again before returning: the resulting mapped set and entry-call
log equal the original ones (only the fresh-id counter advanced). -/
theorem load_rdyn_plugin_missing_symbol_releases_image {σ : Type}
    (env : Env σ) (path : String) (st : LoaderState)
    (hopen : env.libNew path = true)
    (hsym : env.getSym path CREATE_RDYN_SYM_NAME = none) :
    load_rdyn_plugin env path st =
      (none, ⟨st.nextLib + 1, st.mapped, st.entryCalls⟩) := by
  simp [load_rdyn_plugin, hopen, hsym, Library.drop]

/-- Witness for C4: `nosym.so` opens under `envW` but has no entry symbol;
loading it from the state `⟨5, [1, 3], []⟩` returns `none` with the mapped
set `[1, 3]` restored. -/
theorem load_rdyn_plugin_missing_symbol_releases_image_witness :
    load_rdyn_plugin envW "nosym.so" ⟨5, [1, 3], []⟩ =
      (none, ⟨6, [1, 3], []⟩) :=
  load_rdyn_plugin_missing_symbol_releases_image envW "nosym.so"
    ⟨5, [1, 3], []⟩ rfl rfl

/-- C5: whenever `load_rdyn_plugin` returns `some` handle, the handle
holds both constituents: its `plugin` field is exactly the object produced
by the resolved entry point, and its `library` field identifies an image
that is actually mapped in the resulting state.  (That no partial bundle
can exist is structural: every `RustDynPlugin` value has both fields.) -/
theorem load_rdyn_plugin_some_has_both_constituents {σ : Type}
    (env : Env σ) (path : String) (st : LoaderState) (h : RustDynPlugin σ)
    (hsome : (load_rdyn_plugin env path st).1 = some h) :
    env.libNew path = true ∧
    (∃ f, env.getSym path CREATE_RDYN_SYM_NAME = some f ∧ h.plugin = f ()) ∧
    h.library.id ∈ (load_rdyn_plugin env path st).2.mapped := by
  by_cases hb : env.libNew path
  · cases hs : env.getSym path CREATE_RDYN_SYM_NAME with
    | none => rw [(load_rdyn_plugin_open_failure_absent env path st).2 hs] at hsome
              exact absurd hsome (by simp)
    | some f =>
        rw [load_rdyn_plugin_of_valid hb hs] at hsome ⊢
        cases Option.some_inj.mp hsome
        exact ⟨hb, ⟨f, rfl, rfl⟩, List.mem_cons_self _ _⟩
  · simp [load_rdyn_plugin, hb] at hsome

/-- Witness for C5: loading `a.so` under `envW` yields the handle
`⟨⟨0⟩, pAW⟩`, whose plugin is the entry point's product and whose image id
is mapped afterwards. -/
theorem load_rdyn_plugin_some_has_both_constituents_witness :
    envW.libNew "a.so" = true ∧
    (∃ f, envW.getSym "a.so" CREATE_RDYN_SYM_NAME = some f ∧
      (⟨⟨0⟩, pAW⟩ : RustDynPlugin Nat).plugin = f ()) ∧
    (⟨⟨0⟩, pAW⟩ : RustDynPlugin Nat).library.id ∈
      (load_rdyn_plugin envW "a.so" ⟨0, [], []⟩).2.mapped :=
  load_rdyn_plugin_some_has_both_constituents envW "a.so" ⟨0, [], []⟩
    ⟨⟨0⟩, pAW⟩ rfl

/-- C6: delegation through the handle is transparent: `Deref` yields the
wrapped object itself, so `name()` on the handle equals `name()` on the
object, `build` through the handle equals `build` on the object, and a
mutation applied through `DerefMut` is exactly that mutation applied to
the wrapped object. -/
theorem handle_delegation_transparent {σ : Type} :
    ∀ h : RustDynPlugin σ,
      RustDynPlugin.deref h = h.plugin ∧
      RustDynPlugin.name h = h.plugin.name ∧
      (∀ s, (RustDynPlugin.deref h).build s = h.plugin.build s) ∧
      (∀ f, (RustDynPlugin.derefMutModify h f).plugin = f h.plugin) :=
  fun _ => ⟨rfl, rfl, fun _ => rfl, fun _ => rfl⟩

/-- C7: if the directory cannot be listed, `load_mods` still returns
normally, leaving the app unchanged except that the `ModLoaderData`
resource now holds the empty registry. -/
theorem load_mods_unreadable_dir_empty_registry {σ : Type} (env : Env σ)
    (app : App σ) (st : LoaderState) (dir : String)
    (hdir : env.readDir dir = none) :
    (App.load_mods env app st dir).1 =
      { app with modLoaderData := some ⟨[]⟩ } := by
  unfold App.load_mods
  rw [hdir]
  exact App.insert_resource_fst app st ⟨[]⟩

/-- Witness for C7: `envW` cannot list `nodir`, and scanning it yields the
app with an empty registry resource. -/
theorem load_mods_unreadable_dir_empty_registry_witness :
    (App.load_mods envW ⟨0, none⟩ ⟨0, [], []⟩ "nodir").1 =
      { (⟨0, none⟩ : App Nat) with modLoaderData := some ⟨[]⟩ } :=
  load_mods_unreadable_dir_empty_registry envW ⟨0, none⟩ ⟨0, [], []⟩
    "nodir" rfl

/-- C9: when the underlying load succeeds, `load_mod` applies the loaded
plugin's `build` exactly once to the host state and returns the handle,
touching nothing else of the app (in particular not the registry
resource); when the load yields `none`, no `build` runs and the app is
returned entirely unchanged. -/
theorem load_mod_build_once_or_unchanged {σ : Type} (env : Env σ)
    (app : App σ) (st : LoaderState) (mod_path : String) :
    (∀ (h : RustDynPlugin σ) (st1 : LoaderState),
        load_rdyn_plugin env mod_path st = (some h, st1) →
        App.load_mod env app st mod_path =
          (some h, { app with hostState := h.plugin.build app.hostState }, st1)) ∧
    (∀ st1 : LoaderState,
        load_rdyn_plugin env mod_path st = (none, st1) →
        App.load_mod env app st mod_path = (none, app, st1)) := by
  constructor
  · intro h st1 hload
    simp [App.load_mod, RustDynPlugin.load_from, hload, RustDynPlugin.deref]
  · intro st1 hload
    simp [App.load_mod, RustDynPlugin.load_from, hload]

/-- Witness for C9: under `envW`, loading `a.so` into an app with host
state `0` applies `pAW`'s build once (host state becomes `1`) and returns
the handle; loading the unopenable `bad` returns the app unchanged. -/
theorem load_mod_build_once_or_unchanged_witness :
    App.load_mod envW ⟨0, none⟩ ⟨0, [], []⟩ "a.so" =
      (some ⟨⟨0⟩, pAW⟩, ⟨1, none⟩, ⟨1, [0], ["a.so"]⟩) ∧
    App.load_mod envW ⟨0, none⟩ ⟨0, [], []⟩ "bad" =
      (none, ⟨0, none⟩, ⟨0, [], []⟩) :=
  ⟨(load_mod_build_once_or_unchanged envW ⟨0, none⟩ ⟨0, [], []⟩ "a.so").1
      ⟨⟨0⟩, pAW⟩ ⟨1, [0], ["a.so"]⟩ rfl,
   (load_mod_build_once_or_unchanged envW ⟨0, none⟩ ⟨0, [], []⟩ "bad").2
      ⟨0, [], []⟩ rfl⟩

/-- C2: for an enumerable directory, the registry resource produced by
`load_mods` contains exactly the handles of the valid modules — one per
entry that is readable, is a regular file, has a text path, opens, and
resolves the entry symbol — with their plugin objects in the same relative
order in which the valid entries were enumerated; invalid candidates are
skipped without aborting the (total) scan. -/
theorem load_mods_registry_exactly_valid_in_order {σ : Type} (env : Env σ)
    (app : App σ) (st : LoaderState) (dir : String)
    (entries : List (Option DirEntry))
    (hdir : env.readDir dir = some entries) :
    ∃ d, (App.load_mods env app st dir).1.modLoaderData = some d ∧
      d.loaded_plugins.map (fun h => h.plugin) =
        entries.filterMap (entryLoadsPlugin env) := by
  rw [load_mods_eq_of_readDir env app st dir entries hdir]
  refine ⟨⟨((filteredCandidates entries).foldl (load_mods_step env) (app, st, [])).2.2⟩,
    ?_, ?_⟩
  · rw [App.insert_resource_fst]
  · show ((filteredCandidates entries).foldl (load_mods_step env) (app, st, [])).2.2.map
        (fun h => h.plugin) = entries.filterMap (entryLoadsPlugin env)
    rw [load_mods_foldl_loaded_map, filterMap_entryLoads_eq]
    simp

/-- Witness for C2: scanning `m` under `envW` (two valid modules among six
invalid candidates) yields a registry of exactly the plugins of `a.so` and
`b.so`, in enumeration order. -/
theorem load_mods_registry_exactly_valid_in_order_witness :
    ∃ d, (App.load_mods envW ⟨0, none⟩ ⟨0, [], []⟩ "m").1.modLoaderData = some d ∧
      d.loaded_plugins.map (fun h => h.plugin) = [pAW, pBW] := by
  obtain ⟨d, hd, hmap⟩ :=
    load_mods_registry_exactly_valid_in_order envW ⟨0, none⟩ ⟨0, [], []⟩ "m" _ rfl
  exact ⟨d, hd, hmap.trans (by rfl)⟩

/-- C8: the scan is strictly sequential in enumeration order: with two
valid modules `eA` (before) and `eB` (after) in the directory listing, the
whole scan factors as prefix, then `eA`'s load-and-integrate step, then
the middle entries, then `eB`'s step, then the suffix; `eA`'s step applies
`pA.build` to the host state accumulated so far (so A's integration is
complete before anything of B runs), and `eB`'s step applies `pB.build` to
the host state accumulated after A — so B's integration observes every
host-state change A's integration made. -/
theorem load_mods_integration_sequential {σ : Type} (env : Env σ)
    (es1 es2 es3 : List (Option DirEntry)) (eA eB : DirEntry)
    (pA pB : DynPlugin σ)
    (hA : entryLoadsPlugin env (some eA) = some pA)
    (hB : entryLoadsPlugin env (some eB) = some pB)
    (app : App σ) (st : LoaderState) (dir : String)
    (hdir : env.readDir dir = some (es1 ++ some eA :: es2 ++ some eB :: es3)) :
    ∃ accPreA accPostA accPreB accPostB accEnd :
        App σ × LoaderState × List (RustDynPlugin σ),
      accPreA = (filteredCandidates es1).foldl (load_mods_step env) (app, st, []) ∧
      accPostA = load_mods_step env accPreA eA ∧
      accPreB = (filteredCandidates es2).foldl (load_mods_step env) accPostA ∧
      accPostB = load_mods_step env accPreB eB ∧
      accEnd = (filteredCandidates es3).foldl (load_mods_step env) accPostB ∧
      App.load_mods env app st dir =
        App.insert_resource accEnd.1 accEnd.2.1 ⟨accEnd.2.2⟩ ∧
      accPostA.1.hostState = pA.build accPreA.1.hostState ∧
      accPostB.1.hostState = pB.build accPreB.1.hostState := by
  obtain ⟨hfA, hcA⟩ := entryLoadsPlugin_some_elim hA
  obtain ⟨hfB, hcB⟩ := entryLoadsPlugin_some_elim hB
  refine ⟨_, _, _, _, _, rfl, rfl, rfl, rfl, rfl, ?_, ?_, ?_⟩
  · have hsplit : filteredCandidates (es1 ++ some eA :: es2 ++ some eB :: es3) =
        filteredCandidates es1 ++ eA ::
          (filteredCandidates es2 ++ eB :: filteredCandidates es3) := by
      rw [filteredCandidates_append, filteredCandidates_append,
        filteredCandidates_cons_file hfA, filteredCandidates_cons_file hfB,
        List.append_assoc, List.cons_append]
    rw [load_mods_eq_of_readDir env app st dir _ hdir, hsplit, List.foldl_append,
      List.foldl_cons, List.foldl_append, List.foldl_cons]
  · rw [load_mods_step_of_valid hcA]
  · rw [load_mods_step_of_valid hcB]

/-- Witness for C8: in `envW`'s directory `m`, `a.so` is enumerated before
`b.so` with six invalid candidates between them; the scan factors through
A's step and then B's step, with the host-state equations instantiated. -/
theorem load_mods_integration_sequential_witness :
    ∃ accPreA accPostA accPreB accPostB accEnd :
        App Nat × LoaderState × List (RustDynPlugin Nat),
      accPreA = (filteredCandidates []).foldl (load_mods_step envW)
        (⟨0, none⟩, ⟨0, [], []⟩, []) ∧
      accPostA = load_mods_step envW accPreA eAW ∧
      accPreB = (filteredCandidates midEntriesW).foldl (load_mods_step envW) accPostA ∧
      accPostB = load_mods_step envW accPreB eBW ∧
      accEnd = (filteredCandidates []).foldl (load_mods_step envW) accPostB ∧
      App.load_mods envW ⟨0, none⟩ ⟨0, [], []⟩ "m" =
        App.insert_resource accEnd.1 accEnd.2.1 ⟨accEnd.2.2⟩ ∧
      accPostA.1.hostState = pAW.build accPreA.1.hostState ∧
      accPostB.1.hostState = pBW.build accPreB.1.hostState :=
  load_mods_integration_sequential envW [] midEntriesW [] eAW eBW pAW pBW
    rfl rfl ⟨0, none⟩ ⟨0, [], []⟩ "m" rfl

theorem load_rdyn_plugin_WF {σ : Type} (env : Env σ) (path : String)
    (st : LoaderState) (h : st.WF) : (load_rdyn_plugin env path st).2.WF := by
  obtain ⟨h1, h2⟩ := h
  unfold load_rdyn_plugin
  by_cases hb : env.libNew path
  · cases hs : env.getSym path CREATE_RDYN_SYM_NAME with
    | none =>
        simp only [hb, if_true, hs, Library.drop, List.erase_cons_head]
        exact ⟨h1, fun i hi => Nat.lt_succ_of_lt (h2 i hi)⟩
    | some f =>
        simp only [hb, if_true, hs]
        refine ⟨List.Nodup.cons (fun hmem => ?_) h1, fun i hi => ?_⟩
        · exact absurd (h2 _ hmem) (Nat.lt_irrefl _)
        · rcases List.mem_cons.mp hi with rfl | hi2
          · exact Nat.lt_succ_self _
          · exact Nat.lt_succ_of_lt (h2 i hi2)
  · simpa [hb] using ⟨h1, h2⟩

theorem App.load_mod_WF {σ : Type} (env : Env σ) (app : App σ)
    (st : LoaderState) (mod_path : String) (h : st.WF) :
    (App.load_mod env app st mod_path).2.2.WF := by
  have hwf := load_rdyn_plugin_WF env mod_path st h
  unfold App.load_mod RustDynPlugin.load_from
  rcases hl : load_rdyn_plugin env mod_path st with ⟨o, st1⟩
  rw [hl] at hwf
  cases o <;> exact hwf

theorem App.load_mod_resource {σ : Type} (env : Env σ) (app : App σ)
    (st : LoaderState) (mod_path : String) :
    (App.load_mod env app st mod_path).2.1.modLoaderData = app.modLoaderData := by
  unfold App.load_mod
  split <;> rfl

theorem load_mods_step_WF {σ : Type} (env : Env σ)
    (acc : App σ × LoaderState × List (RustDynPlugin σ)) (e : DirEntry)
    (h : acc.2.1.WF) : (load_mods_step env acc e).2.1.WF := by
  unfold load_mods_step
  split
  · exact h
  next path hp =>
    have hwf := App.load_mod_WF env acc.1 acc.2.1 path h
    split
    next plugin app1 st1 heq => rw [heq] at hwf; exact hwf
    next app1 st1 heq => rw [heq] at hwf; exact hwf

theorem load_mods_step_resource {σ : Type} (env : Env σ)
    (acc : App σ × LoaderState × List (RustDynPlugin σ)) (e : DirEntry) :
    (load_mods_step env acc e).1.modLoaderData = acc.1.modLoaderData := by
  unfold load_mods_step
  split
  · rfl
  next path hp =>
    have hres := App.load_mod_resource env acc.1 acc.2.1 path
    split
    next plugin app1 st1 heq => rw [heq] at hres; exact hres
    next app1 st1 heq => rw [heq] at hres; exact hres

theorem load_mods_foldl_WF {σ : Type} (env : Env σ) (cs : List DirEntry) :
    ∀ acc : App σ × LoaderState × List (RustDynPlugin σ), acc.2.1.WF →
      ((cs.foldl (load_mods_step env) acc).2.1).WF := by
  induction cs with
  | nil => intro acc h; exact h
  | cons c rest ih =>
      intro acc h
      exact ih _ (load_mods_step_WF env acc c h)

theorem load_mods_foldl_resource {σ : Type} (env : Env σ)
    (cs : List DirEntry) :
    ∀ acc : App σ × LoaderState × List (RustDynPlugin σ),
      ((cs.foldl (load_mods_step env) acc).1).modLoaderData =
        acc.1.modLoaderData := by
  induction cs with
  | nil => intro acc; rfl
  | cons c rest ih =>
      intro acc
      rw [List.foldl_cons, ih, load_mods_step_resource]

theorem dropAll_preserves_not_mem {σ : Type} (hs : List (RustDynPlugin σ)) :
    ∀ (st : LoaderState) (x : Nat), x ∉ st.mapped →
      x ∉ (hs.foldl (fun s h => RustDynPlugin.dropGlue h s) st).mapped := by
  induction hs with
  | nil => intro st x hx; exact hx
  | cons h0 rest ih =>
      intro st x hx
      refine ih _ x fun hmem => hx ?_
      exact List.mem_of_mem_erase hmem

theorem dropAll_not_mem {σ : Type} (hs : List (RustDynPlugin σ)) :
    ∀ st : LoaderState, st.mapped.Nodup →
      ∀ h ∈ hs, h.library.id ∉
        (hs.foldl (fun s hh => RustDynPlugin.dropGlue hh s) st).mapped := by
  induction hs with
  | nil => intro st _ h hmem; cases hmem
  | cons h0 rest ih =>
      intro st hnd h hmem
      rcases List.mem_cons.mp hmem with rfl | hmem2
      · refine dropAll_preserves_not_mem rest _ _ fun hcon => ?_
        exact ((List.Nodup.mem_erase_iff hnd).mp hcon).1 rfl
      · exact ih _ (hnd.erase _) h hmem2

/-- C10: first conjunct — every invocation of `load_mods` leaves a
`ModLoaderData` resource in the app, the empty registry when the directory
cannot be listed.  Second conjunct — when the app already holds a registry
from an earlier invocation, the new invocation's `insert_resource`
replaces it and runs its drop glue: afterwards every image owned by the
old registry is unmapped (for any well-formed starting loader state). -/
theorem load_mods_inserts_and_overwrites {σ : Type} :
    (∀ (env : Env σ) (app : App σ) (st : LoaderState) (dir : String),
        ∃ d, (App.load_mods env app st dir).1.modLoaderData = some d ∧
          (env.readDir dir = none → d.loaded_plugins = [])) ∧
    (∀ (env : Env σ) (app : App σ) (st : LoaderState) (dir : String)
        (old : ModLoaderData σ), app.modLoaderData = some old → st.WF →
        ∀ h ∈ old.loaded_plugins,
          h.library.id ∉ (App.load_mods env app st dir).2.mapped) := by
  constructor
  · intro env app st dir
    cases hdir : env.readDir dir with
    | none =>
        refine ⟨⟨[]⟩, ?_, fun _ => rfl⟩
        unfold App.load_mods
        rw [hdir, App.insert_resource_fst]
    | some entries =>
        refine ⟨⟨((filteredCandidates entries).foldl (load_mods_step env)
          (app, st, [])).2.2⟩, ?_,
          fun hnone => absurd hnone (by simp)⟩
        rw [load_mods_eq_of_readDir env app st dir entries hdir,
          App.insert_resource_fst]
  · intro env app st dir old hold hwf h hmem
    cases hdir : env.readDir dir with
    | none =>
        unfold App.load_mods
        rw [hdir]
        unfold App.insert_resource
        rw [hold]
        exact dropAll_not_mem old.loaded_plugins st hwf.1 h hmem
    | some entries =>
        rw [load_mods_eq_of_readDir env app st dir entries hdir]
        have hres : ((filteredCandidates entries).foldl (load_mods_step env)
            (app, st, [])).1.modLoaderData = some old := by
          rw [load_mods_foldl_resource]; exact hold
        have hwfF : ((filteredCandidates entries).foldl (load_mods_step env)
            (app, st, [])).2.1.WF :=
          load_mods_foldl_WF env _ _ hwf
        unfold App.insert_resource
        rw [hres]
        exact dropAll_not_mem old.loaded_plugins _ hwfF.1 h hmem

/-- Witness for C10: scanning the unreadable `nodir` still installs an
empty registry; and rescanning `m` from an app that already holds a
registry with a handle for image `0` unmaps image `0`. -/
theorem load_mods_inserts_and_overwrites_witness :
    (∃ d, (App.load_mods envW ⟨0, none⟩ ⟨0, [], []⟩ "nodir").1.modLoaderData =
        some d ∧ d.loaded_plugins = []) ∧
    (⟨⟨0⟩, pAW⟩ : RustDynPlugin Nat).library.id ∉
      (App.load_mods envW ⟨7, some ⟨[⟨⟨0⟩, pAW⟩]⟩⟩ ⟨1, [0], []⟩ "m").2.mapped := by
  constructor
  · obtain ⟨d, hd, himp⟩ := (load_mods_inserts_and_overwrites (σ := Nat)).1
      envW ⟨0, none⟩ ⟨0, [], []⟩ "nodir"
    exact ⟨d, hd, himp rfl⟩
  · exact (load_mods_inserts_and_overwrites (σ := Nat)).2 envW
      ⟨7, some ⟨[⟨⟨0⟩, pAW⟩]⟩⟩ ⟨1, [0], []⟩ "m" ⟨[⟨⟨0⟩, pAW⟩]⟩ rfl
      ⟨by decide, by decide⟩ ⟨⟨0⟩, pAW⟩ (List.mem_singleton_self _)

end RdynPlugins
